import Mathlib

/-!
# Buddy allocator (`buddy.c`): embedding and verified properties

The file holds two embeddings of `buddy.c`.

The first renders the allocator state as a record that keeps the bitmap, the free lists
and the `order` fields of the block headers as three separate stores; every C function
becomes a Lean function of the same name on that record.  Conventions:

* A block pointer is represented by its zero-relative address `ZERO_REL_ADDR(p)`,
  the `NULL` pointer by `none`.
* `unsigned int` is 32 bits wide.  `upper_pow_2` is computed modulo `2 ^ 32`; for an arena
  with `total_size ≤ 2 ^ 31` no other arithmetic of the allocator leaves the 32-bit range.
* The bitmap, the free-list heads and the block headers are separate storage, and the
  bitmap starts all clear (`mem_init` itself never writes the bitmap).
* The `SLIST_*` macros of `<sys/queue.h>` act on sequences of blocks.

It carries the properties of the size and order computations, of the failure paths and of
the buddy arithmetic, and the runs on the arena of `test_buddy.c`, `mem_init(4096, 128)`.

The second embedding, `Prog`, places bitmap, list heads and headers in the memory the
program obtains from `sbrk`, byte by byte, and carries the runs in which the program
leaves the behaviour of the first.
-/

namespace Buddy

/-- Arena descriptor `struct mem_info` (buddy.h) together with the allocator-owned
memory it points to.  Block pointers are represented by their zero-relative
address `ZERO_REL_ADDR(p)`; the bitmap is the set of bit indices that are set;
`free_lists i` is the sequence of blocks linked on `mi->free_lists[i]`, head
first; `hdr_order a` is the `order` field of the `struct mem_block` header stored
at zero-relative address `a`. -/
structure mem_info where
  total_size : Nat
  total_order : Nat
  min_size : Nat
  min_order : Nat
  bitmap : Nat → Bool
  free_lists : Nat → List Nat
  hdr_order : Nat → Nat

/-- Macro `BIT_SET(map, bit)`. -/
def BIT_SET (map : Nat → Bool) (bit : Nat) : Nat → Bool := Function.update map bit true

/-- Macro `BIT_CLEAR(map, bit)`. -/
def BIT_CLEAR (map : Nat → Bool) (bit : Nat) : Nat → Bool := Function.update map bit false

/-- Macro `BIT_ISSET(map, bit)`. -/
def BIT_ISSET (map : Nat → Bool) (bit : Nat) : Bool := map bit

/-- Mask table `b[]` of `log_2`. -/
def log_2_b : List Nat := [0xAAAAAAAA, 0xCCCCCCCC, 0xF0F0F0F0, 0xFF00FF00, 0xFFFF0000]

/-- Function `log_2`: log base 2 of a 32-bit power of two. -/
def log_2 (pow_2 : Nat) : Nat :=
  [4, 3, 2, 1].foldl
    (fun r i => r ||| ((if pow_2 &&& log_2_b.getD i 0 ≠ 0 then 1 else 0) <<< i))
    (if pow_2 &&& log_2_b.getD 0 0 ≠ 0 then 1 else 0)

/-- Function `upper_pow_2` on `unsigned int` (arithmetic modulo `2 ^ 32`). -/
def upper_pow_2 (n : Nat) : Nat :=
  let n := (n + 2 ^ 32 - 1) % 2 ^ 32
  let n := n ||| (n >>> 1)
  let n := n ||| (n >>> 2)
  let n := n ||| (n >>> 4)
  let n := n ||| (n >>> 8)
  let n := n ||| (n >>> 16)
  (n + 1) % 2 ^ 32

/-- Function `get_last_bit`: bitmap index of the last minimum unit of a block.  Every call
of the allocator has `order ≥ min_order`, so the quotient is at least 1 and the C
subtraction does not wrap. -/
def get_last_bit (mi : mem_info) (mem_block order : Nat) : Nat :=
  (mem_block + (1 <<< order)) / mi.min_size - 1

/-- Function `set_allocated`. -/
def set_allocated (mi : mem_info) (mem_block order : Nat) : mem_info :=
  { mi with bitmap := BIT_SET mi.bitmap (get_last_bit mi mem_block order) }

/-- Function `set_free`. -/
def set_free (mi : mem_info) (mem_block order : Nat) : mem_info :=
  { mi with bitmap := BIT_CLEAR mi.bitmap (get_last_bit mi mem_block order) }

/-- Function `is_allocated`. -/
def is_allocated (mi : mem_info) (mem_block order : Nat) : Bool :=
  BIT_ISSET mi.bitmap (get_last_bit mi mem_block order)

/-- Recursion of `next_offset`, with the recursion depth as an explicit bound; the bound is
never the reason for the result (`next_offset_unfold`). -/
def next_offset_fuel (mi : mem_info) (start : Nat) : Nat → Nat → Int
  | 0, _ => -1
  | fuel + 1, n =>
    if start + n ≥ mi.total_size / mi.min_size then -1
    else if BIT_ISSET mi.bitmap (start + n) then ((start + n : Nat) : Int)
    else next_offset_fuel mi start fuel (2 * n + 1)

/-- Function `next_offset`: each call moves the probe at least one bit closer to the end of
the bitmap, so the distance to the end bounds the depth. -/
def next_offset (mi : mem_info) (start n : Nat) : Int :=
  next_offset_fuel mi start (mi.total_size / mi.min_size - (start + n)) n

/-- Function `get_block_order`; `-1` when the probe fails. -/
def get_block_order (mi : mem_info) (mem_block : Nat) : Int :=
  let start := mem_block / mi.min_size
  let e := next_offset mi start 0
  if e < 0 then -1
  else ((log_2 (((e.toNat - start + 1) * mi.min_size) % 2 ^ 32) : Nat) : Int)

/-- Function `get_buddy`, on zero-relative addresses: XOR with the block size. -/
def get_buddy (mem_block order : Nat) : Nat := mem_block ^^^ (1 <<< order)

/-- Macro `SLIST_REMOVE`: unlinks the first occurrence of `elm`; walking a list that
does not contain `elm` dereferences a null link, rendered as `none`. -/
def SLIST_REMOVE (l : List Nat) (elm : Nat) : Option (List Nat) :=
  if elm ∈ l then some (l.erase elm) else none

/-- Function `mem_init`, for the run in which every `sbrk` succeeds.  The bitmap, the list
heads and the arena are the fresh zero-filled memory `sbrk` returns; `SLIST_INIT` is
applied to the lists `min_order .. total_order`, then the whole arena is linked on
`free_lists[total_order]`. -/
def mem_init (total_size min_size : Nat) : mem_info :=
  let tsz := upper_pow_2 total_size
  let tord := log_2 tsz
  let msz := upper_pow_2 min_size
  let mord := log_2 msz
  let fl : Nat → List Nat :=
    (List.range' mord (tord + 1 - mord)).foldl (fun fl i => Function.update fl i [])
      (fun _ => [])
  { total_size := tsz
    total_order := tord
    min_size := msz
    min_order := mord
    bitmap := fun _ => false
    free_lists := Function.update fl tord (0 :: fl tord)
    hdr_order := Function.update (fun _ => 0) 0 tord }

/-- Body of the `while (i > order)` loop of `mem_alloc`, after `i--`: the second half of
the block becomes a free block of order `i`. -/
def split_step (mi : mem_info) (mem_block i : Nat) : mem_info :=
  let buddy := mem_block + (1 <<< i)
  let mi1 := { mi with hdr_order := Function.update mi.hdr_order buddy i }
  { mi1 with free_lists := Function.update mi1.free_lists i (buddy :: mi1.free_lists i) }

/-- Inner `while (i > order)` loop of `mem_alloc`; returns the state and the final `i`. -/
def split_loop (mem_block order : Nat) : Nat → mem_info → mem_info × Nat
  | 0, mi => (mi, 0)
  | i + 1, mi =>
    if i + 1 > order then split_loop mem_block order i (split_step mi mem_block i)
    else (mi, i + 1)

/-- Body of the `for` loop of `mem_alloc` once a non-empty list `free_lists[i]` with first
block `mem_block` and remainder `rest` is found. -/
def alloc_take (mi : mem_info) (order i mem_block : Nat) (rest : List Nat) :
    Option Nat × mem_info :=
  let mi1 := { mi with free_lists := Function.update mi.free_lists i rest }
  let r := split_loop mem_block order i mi1
  let mi2 := set_allocated r.1 mem_block r.2
  (some mem_block, { mi2 with hdr_order := Function.update mi2.hdr_order mem_block order })

/-- Outer `for (i = order; i <= total_order; i++)` loop of `mem_alloc`. -/
def alloc_scan (mi : mem_info) (order : Nat) : Nat → Nat → Option Nat × mem_info
  | 0, _ => (none, mi)
  | fuel + 1, i =>
    if i ≤ mi.total_order then
      match mi.free_lists i with
      | [] => alloc_scan mi order fuel (i + 1)
      | mem_block :: rest => alloc_take mi order i mem_block rest
    else (none, mi)

/-- Order computed by `mem_alloc` for a request. -/
def alloc_order (mi : mem_info) (size : Nat) : Nat :=
  log_2 (upper_pow_2 (if size < mi.min_size then mi.min_size else size))

/-- Function `mem_alloc`; `none` is `NULL`. -/
def mem_alloc (mi : mem_info) (size : Nat) : Option Nat × mem_info :=
  if size > mi.total_size then (none, mi)
  else
    let order := alloc_order mi size
    alloc_scan mi order (mi.total_order + 1 - order) order

/-- Conversion of a C `int` to `unsigned int`. -/
def to_unsigned (i : Int) : Nat := (i % 2 ^ 32).toNat

/-- Body of the coalescing loop of `mem_free` once the buddy has been unlinked, `l` being
the remaining list: returns the new state and the merged block. -/
def merge_step (mi : mem_info) (mem_block order buddy : Nat) (l : List Nat) : mem_info × Nat :=
  let mi1 := { mi with free_lists := Function.update mi.free_lists order l }
  let mb := if buddy < mem_block then buddy else mem_block
  let mi2 := set_free mi1 mb order
  ({ mi2 with hdr_order := Function.update mi2.hdr_order mb (order + 1) }, mb)

/-- Coalescing `while (order < total_order)` loop of `mem_free`; `none` when `SLIST_REMOVE`
walks off the list. -/
def coalesce : Nat → mem_info → Nat → Nat → Option (mem_info × Nat × Nat)
  | 0, mi, mem_block, order => some (mi, mem_block, order)
  | fuel + 1, mi, mem_block, order =>
    if order < mi.total_order then
      let buddy := get_buddy mem_block order
      if is_allocated mi buddy order then some (mi, mem_block, order)
      else if !(is_allocated mi buddy order) && decide (mi.hdr_order buddy ≠ order) then
        some (mi, mem_block, order)
      else
        match SLIST_REMOVE (mi.free_lists order) buddy with
        | none => none
        | some l =>
          coalesce fuel (merge_step mi mem_block order buddy l).1
            (merge_step mi mem_block order buddy l).2 (order + 1)
    else some (mi, mem_block, order)

/-- Tail of `mem_free` after the loop: the block is marked free and linked at the head of
its list. -/
def free_insert (mi : mem_info) (mem_block order : Nat) : mem_info :=
  let mi1 := { mi with hdr_order := Function.update mi.hdr_order mem_block order }
  let mi2 := set_free mi1 mem_block order
  { mi2 with free_lists := Function.update mi2.free_lists order (mem_block :: mi2.free_lists order) }

/-- Function `mem_free`; the pointer argument is `none` for `NULL`, the result is `none`
when the call does not return. -/
def mem_free (mi : mem_info) (ptr : Option Nat) : Option (Int × mem_info) :=
  match ptr with
  | none => some (-1, mi)
  | some mem_block =>
    let order := get_block_order mi mem_block
    if to_unsigned order < mi.min_order ∨ to_unsigned order > mi.total_order then some (-1, mi)
    else
      match coalesce (mi.total_order - order.toNat) mi mem_block order.toNat with
      | none => none
      | some r => some (0, free_insert r.1 r.2.1 r.2.2)

/-- Parameters of an arena as `mem_init` sets them: sizes are the powers of two given by
the orders, and the orders fit a 32-bit shift. -/
def ArenaWF (mi : mem_info) : Prop :=
  mi.total_size = 2 ^ mi.total_order ∧ mi.min_size = 2 ^ mi.min_order ∧
    mi.total_order ≤ 31 ∧ mi.min_order ≤ 31

/-- Reading of "the least power of two that is at least `t`". -/
def IsLeastPow2 (p t : Nat) : Prop :=
  (∃ k, p = 2 ^ k) ∧ t ≤ p ∧ ∀ j, t ≤ 2 ^ j → p ≤ 2 ^ j

/-- States reachable from `mem_init T M` by `mem_alloc` calls and by `mem_free` calls on
addresses handed out and not yet freed.  The second index lists the blocks currently
handed out, each with the order `mem_alloc` computed for it. -/
inductive Reachable (T M : Nat) : mem_info → List (Nat × Nat) → Prop
  | init : Reachable T M (mem_init T M) []
  | alloc_ok (mi : mem_info) (live : List (Nat × Nat)) (size a : Nat) :
      Reachable T M mi live → (mem_alloc mi size).1 = some a →
      Reachable T M (mem_alloc mi size).2 ((a, alloc_order mi size) :: live)
  | alloc_null (mi : mem_info) (live : List (Nat × Nat)) (size : Nat) :
      Reachable T M mi live → (mem_alloc mi size).1 = none →
      Reachable T M (mem_alloc mi size).2 live
  | free (mi : mem_info) (live : List (Nat × Nat)) (a k : Nat) (r : Int) (mi1 : mem_info) :
      Reachable T M mi live → (a, k) ∈ live → mem_free mi (some a) = some (r, mi1) →
      Reachable T M mi1 (live.erase (a, k))

/-- Blocks on the free lists `free_lists[0 .. total_order]`, each with the order of its list. -/
def free_blocks (mi : mem_info) : List (Nat × Nat) :=
  (List.range (mi.total_order + 1)).flatMap (fun k => (mi.free_lists k).map (fun o => (o, k)))

/-- Number of blocks among `bs` whose byte range `[offset, offset + 2 ^ order)` contains `x`. -/
def cover_count (bs : List (Nat × Nat)) (x : Nat) : Nat :=
  bs.countP (fun b => decide (b.1 ≤ x ∧ x < b.1 + 2 ^ b.2))

/-- State after `mem_free` of offset `a`; the state itself when the call does not return. -/
def free_state (mi : mem_info) (a : Nat) : mem_info :=
  match mem_free mi (some a) with
  | some r => r.2
  | none => mi

/-- Scenario of `test_buddy.c`: the arena after `mem_init(4096, 128)`. -/
def demo0 : mem_info := mem_init 4096 128

/-- Scenario: after a first `mem_alloc(128)`, which returns offset 0. -/
def demo1 : mem_info := (mem_alloc demo0 128).2

/-- Scenario: after a second `mem_alloc(128)`, which returns offset 128. -/
def demo2 : mem_info := (mem_alloc demo1 128).2

/-- Scenario: after `mem_free` of offset 0. -/
def demo3 : mem_info := free_state demo2 0

/-- Scenario: after `mem_free` of offset 128. -/
def demo4 : mem_info := free_state demo3 128

/-- Scenario: a second `mem_free` of offset 0, which was freed already. -/
def demo5 : mem_info := free_state demo3 0

/-- A store by the caller into its block at offset `a`, at the bytes where a free block
keeps its `order` field. -/
def caller_write (mi : mem_info) (a v : Nat) : mem_info :=
  { mi with hdr_order := Function.update mi.hdr_order a v }

/-- Second scenario: `mem_init(4096, 128)`, then `mem_alloc(256)`, which returns offset 0. -/
def own0 : mem_info := (mem_alloc demo0 256).2

/-- Second scenario: then `mem_alloc(128)`, which returns offset 256. -/
def own1 : mem_info := (mem_alloc own0 128).2

/-- Second scenario: then the caller stores the value 8 in the `order` word of its block at
offset 256. -/
def own2 : mem_info := caller_write own1 256 8

/-- Third scenario: `mem_init(4096, 128)`, `mem_alloc(512)` returning offset 0,
`mem_alloc(128)` returning offset 512, then the caller stores the value 9 in the `order`
word of its block at offset 512. -/
def own3 : mem_info :=
  caller_write (mem_alloc (mem_alloc demo0 512).2 128).2 512 9

/-- Fourth scenario: `mem_init(4096, 128)`, `mem_alloc(1024)` returning offset 0,
`mem_alloc(128)` returning offset 1024. -/
def own4 : mem_info := (mem_alloc (mem_alloc demo0 1024).2 128).2

/-- Fourth scenario: then the caller stores the value 10 in the `order` word of its block at
offset 1024. -/
def own5 : mem_info := caller_write own4 1024 10

/-- Fifth scenario: the second scenario (offsets 0 and 256 handed out), then `mem_free` of
offset 0. -/
def back0 : mem_info := free_state own1 0

/-- Fifth scenario: then the caller stores the value 8 in the `order` word of its block at
offset 256. -/
def back1 : mem_info := caller_write back0 256 8

/-- Fifth scenario: then `mem_alloc(256)`, which returns offset 0 again. -/
def back2 : mem_info := (mem_alloc back1 256).2

/-! ## The program on its memory

The definitions above keep bitmap, list heads and block headers in three separate stores.
The program keeps all three in the memory it obtains from `sbrk`: the arena, then the
bitmap (`num_blocks / 8 + 1` bytes, read and written as `unsigned int` words at index
`bit / 8`), then the array of list heads; block headers (`struct mem_block`: the link, then
`order`) lie inside the blocks.  The definitions of `Prog` follow the program on that
memory, byte by byte, for a little-endian target whose pointers and `unsigned long` have
`ptr_size` bytes (4 on the 32-bit targets the pointer casts of `buddy.h` presuppose) and
whose `unsigned int` has 4 bytes. -/

namespace Prog

/-- The fields of `struct mem_info` (`base_addr`, the sizes and orders, the addresses
`bitmap` and `free_lists`), the pointer size of the target, the break `brk` after the three
`sbrk` calls for arena, bitmap and lists, and the bytes of memory by address. -/
structure mem_info where
  ptr_size : Nat
  base_addr : Nat
  total_size : Nat
  total_order : Nat
  min_size : Nat
  min_order : Nat
  bitmap : Nat
  free_lists : Nat
  brk : Nat
  mem : Nat → Nat

/-- Value of the `n` bytes at address `a`, least significant byte first. -/
def load (m : Nat → Nat) (a : Nat) : Nat → Nat
  | 0 => 0
  | n + 1 => m a % 256 + 256 * load m (a + 1) n

/-- Memory after the `n` low bytes of `v` are stored at address `a`, least significant
byte first. -/
def store (m : Nat → Nat) (a v : Nat) : Nat → (Nat → Nat)
  | 0 => m
  | n + 1 => store (Function.update m a (v % 256)) (a + 1) (v / 256) n

/-- Read of `n` bytes at address `a`; `none` when the bytes are not all inside the memory
obtained for arena, bitmap and lists (the behaviour of the program is then undefined; at
address 0 it is a null dereference). -/
def read (mi : mem_info) (a n : Nat) : Option Nat :=
  if mi.base_addr ≤ a ∧ a + n ≤ mi.brk then some (load mi.mem a n) else none

/-- Write of the `n` low bytes of `v` at address `a`; `none` as for `read`. -/
def write (mi : mem_info) (a n v : Nat) : Option mem_info :=
  if mi.base_addr ≤ a ∧ a + n ≤ mi.brk then some { mi with mem := store mi.mem a v n }
  else none

/-- Address of the word `map[bit / BITS]` of the bitmap, an array of `unsigned int`. -/
def bit_word (mi : mem_info) (bit : Nat) : Nat := mi.bitmap + 4 * (bit / 8)

/-- Macro `BIT_ISSET`. -/
def BIT_ISSET (mi : mem_info) (bit : Nat) : Option Bool :=
  match read mi (bit_word mi bit) 4 with
  | none => none
  | some w => some (w &&& (0x80 >>> (bit % 8)) != 0)

/-- Macro `BIT_SET`: the word is read, or-ed with the mask and written back. -/
def BIT_SET (mi : mem_info) (bit : Nat) : Option mem_info :=
  match read mi (bit_word mi bit) 4 with
  | none => none
  | some w => write mi (bit_word mi bit) 4 (w ||| (0x80 >>> (bit % 8)))

/-- Macro `BIT_CLEAR`: the word is read, and-ed with the complement of the mask and
written back. -/
def BIT_CLEAR (mi : mem_info) (bit : Nat) : Option mem_info :=
  match read mi (bit_word mi bit) 4 with
  | none => none
  | some w => write mi (bit_word mi bit) 4 (w &&& (0xFFFFFFFF ^^^ (0x80 >>> (bit % 8))))

/-- Macro `ZERO_REL_ADDR`, on `unsigned int`. -/
def ZERO_REL_ADDR (mi : mem_info) (addr : Nat) : Nat :=
  (addr % 2 ^ 32 + 2 ^ 32 - mi.base_addr % 2 ^ 32) % 2 ^ 32

/-- Function `get_last_bit`.  Every call of the allocator has `order ≥ min_order`; the
subtraction is the truncated one, as in `Buddy.get_last_bit`. -/
def get_last_bit (mi : mem_info) (mem_block order : Nat) : Nat :=
  (ZERO_REL_ADDR mi mem_block + (1 <<< order) % 2 ^ 32) % 2 ^ 32 / mi.min_size - 1

/-- Function `set_allocated`. -/
def set_allocated (mi : mem_info) (mem_block order : Nat) : Option mem_info :=
  BIT_SET mi (get_last_bit mi mem_block order)

/-- Function `set_free`. -/
def set_free (mi : mem_info) (mem_block order : Nat) : Option mem_info :=
  BIT_CLEAR mi (get_last_bit mi mem_block order)

/-- Function `is_allocated`. -/
def is_allocated (mi : mem_info) (mem_block order : Nat) : Option Bool :=
  BIT_ISSET mi (get_last_bit mi mem_block order)

/-- Recursion of `next_offset`, with the recursion depth as an explicit bound that is
reached only when the probe is at or past the end of the bitmap. -/
def next_offset_fuel (mi : mem_info) (start : Nat) : Nat → Nat → Option Int
  | 0, _ => some (-1)
  | fuel + 1, n =>
    if start + n ≥ mi.total_size / mi.min_size then some (-1)
    else
      match BIT_ISSET mi (start + n) with
      | none => none
      | some true => some ((start + n : Nat) : Int)
      | some false => next_offset_fuel mi start fuel (2 * n + 1)

/-- Function `next_offset`. -/
def next_offset (mi : mem_info) (start n : Nat) : Option Int :=
  next_offset_fuel mi start (mi.total_size / mi.min_size - (start + n)) n

/-- Function `get_block_order`; `-1` when the probe fails. -/
def get_block_order (mi : mem_info) (mem_block : Nat) : Option Int :=
  let start := ZERO_REL_ADDR mi mem_block / mi.min_size
  match next_offset mi start 0 with
  | none => none
  | some e =>
    if e < 0 then some (-1)
    else some ((log_2 (((e.toNat - start + 1) * mi.min_size) % 2 ^ 32) : Nat) : Int)

/-- Function `get_buddy`: the XOR on the zero-relative address, then the base is added. -/
def get_buddy (mi : mem_info) (mem_block order : Nat) : Nat :=
  ((ZERO_REL_ADDR mi mem_block ^^^ (1 <<< order)) % 2 ^ 32 + mi.base_addr % 2 ^ 32) %
    2 ^ (8 * mi.ptr_size)

/-- Address of the list head `free_lists[i]`; a `struct list_head` is one pointer. -/
def head_addr (mi : mem_info) (i : Nat) : Nat := mi.free_lists + mi.ptr_size * i

/-- Address of the field `order` of the `struct mem_block` at `mem_block`: it follows the
link, which is one pointer. -/
def order_addr (mi : mem_info) (mem_block : Nat) : Nat := mem_block + mi.ptr_size

/-- Macro `SLIST_FIRST` of `<sys/queue.h>`: the pointer in the list head. -/
def SLIST_FIRST (mi : mem_info) (i : Nat) : Option Nat :=
  read mi (head_addr mi i) mi.ptr_size

/-- Macro `SLIST_INIT` of `<sys/queue.h>`: the list head is set to `NULL`. -/
def SLIST_INIT (mi : mem_info) (i : Nat) : Option mem_info :=
  write mi (head_addr mi i) mi.ptr_size 0

/-- Macro `SLIST_INSERT_HEAD` of `<sys/queue.h>`: the link of `elm` takes the old head,
then the head takes `elm`. -/
def SLIST_INSERT_HEAD (mi : mem_info) (i elm : Nat) : Option mem_info :=
  match SLIST_FIRST mi i with
  | none => none
  | some first =>
    match write mi elm mi.ptr_size first with
    | none => none
    | some mi1 => write mi1 (head_addr mi1 i) mi1.ptr_size elm

/-- Macro `SLIST_REMOVE_HEAD` of `<sys/queue.h>`: the head takes the link of the first
element. -/
def SLIST_REMOVE_HEAD (mi : mem_info) (i : Nat) : Option mem_info :=
  match SLIST_FIRST mi i with
  | none => none
  | some first =>
    match read mi first mi.ptr_size with
    | none => none
    | some nxt => write mi (head_addr mi i) mi.ptr_size nxt

/-- Loop `while (curelm->link.sle_next != elm) curelm = curelm->link.sle_next` of
`SLIST_REMOVE`: the element whose link is `elm`.  A walk of more steps than the memory has
bytes has met an element twice and does not end. -/
def find_prev (mi : mem_info) (elm : Nat) : Nat → Nat → Option Nat
  | 0, _ => none
  | fuel + 1, curelm =>
    match read mi curelm mi.ptr_size with
    | none => none
    | some nxt => if nxt = elm then some curelm else find_prev mi elm fuel nxt

/-- Macro `SLIST_REMOVE` of `<sys/queue.h>`: the head is removed when it is `elm`; else the
list is walked to the element before `elm`, whose link takes the link of `elm`. -/
def SLIST_REMOVE (mi : mem_info) (i elm : Nat) : Option mem_info :=
  match SLIST_FIRST mi i with
  | none => none
  | some first =>
    if first = elm then SLIST_REMOVE_HEAD mi i
    else
      match find_prev mi elm (mi.brk - mi.base_addr + 1) first with
      | none => none
      | some curelm =>
        match read mi elm mi.ptr_size with
        | none => none
        | some nxt => write mi curelm mi.ptr_size nxt

/-- Function `mem_init`, for the run in which every `sbrk` succeeds: `base_addr` is the
address `sbrk` returns for the arena and `mem` the content of memory at that moment.  The
bitmap and the list array follow the arena; no store initialises the bitmap. -/
def mem_init (ptr_size base_addr : Nat) (mem : Nat → Nat) (total_size min_size : Nat) :
    Option mem_info :=
  let tsz := upper_pow_2 total_size
  let tord := log_2 tsz
  let msz := upper_pow_2 min_size
  let mord := log_2 msz
  let num_blocks := tsz / msz
  let bitmap := base_addr + tsz
  let free_lists := bitmap + (num_blocks / 8 + 1)
  let mi0 : mem_info :=
    { ptr_size := ptr_size
      base_addr := base_addr
      total_size := tsz
      total_order := tord
      min_size := msz
      min_order := mord
      bitmap := bitmap
      free_lists := free_lists
      brk := free_lists + (tord + 1) * ptr_size
      mem := mem }
  let mi1 := (List.range' mord (tord + 1 - mord)).foldl
    (fun s i => s.bind (fun m => SLIST_INIT m i)) (some mi0)
  match mi1 with
  | none => none
  | some m1 =>
    match write m1 (order_addr m1 base_addr) 4 tord with
    | none => none
    | some m2 => SLIST_INSERT_HEAD m2 tord base_addr

/-- Inner `while (i > order)` loop of `mem_alloc`: after `i--` the buddy at
`(unsigned int)mem_block + (1UL << i)` gets its `order` field and is linked at the head of
`free_lists[i]`. -/
def split_loop (mem_block order : Nat) : Nat → mem_info → Option (mem_info × Nat)
  | 0, mi => some (mi, 0)
  | i + 1, mi =>
    if i + 1 > order then
      let buddy := (mem_block % 2 ^ 32 + (1 <<< i) % 2 ^ (8 * mi.ptr_size)) %
        2 ^ (8 * mi.ptr_size)
      match write mi (order_addr mi buddy) 4 i with
      | none => none
      | some mi1 =>
        match SLIST_INSERT_HEAD mi1 i buddy with
        | none => none
        | some mi2 => split_loop mem_block order i mi2
    else some (mi, i + 1)

/-- Body of the `for` loop of `mem_alloc` for a non-empty list `free_lists[i]` with first
element `mem_block`. -/
def alloc_take (mi : mem_info) (order i mem_block : Nat) : Option (Nat × mem_info) :=
  match SLIST_REMOVE_HEAD mi i with
  | none => none
  | some mi1 =>
    match split_loop mem_block order i mi1 with
    | none => none
    | some r =>
      match set_allocated r.1 mem_block r.2 with
      | none => none
      | some mi2 =>
        match write mi2 (order_addr mi2 mem_block) 4 order with
        | none => none
        | some mi3 => some (mem_block, mi3)

/-- Outer `for (i = order; i <= total_order; i++)` loop of `mem_alloc`; the address 0 is
`NULL`. -/
def alloc_scan (mi : mem_info) (order : Nat) : Nat → Nat → Option (Nat × mem_info)
  | 0, _ => some (0, mi)
  | fuel + 1, i =>
    if i ≤ mi.total_order then
      match SLIST_FIRST mi i with
      | none => none
      | some first =>
        if first = 0 then alloc_scan mi order fuel (i + 1)
        else alloc_take mi order i first
    else some (0, mi)

/-- Function `mem_alloc`: the pointer returned (0 for `NULL`) and the new state. -/
def mem_alloc (mi : mem_info) (size : Nat) : Option (Nat × mem_info) :=
  if size > mi.total_size then some (0, mi)
  else
    let order := log_2 (upper_pow_2 (if size < mi.min_size then mi.min_size else size))
    alloc_scan mi order (mi.total_order + 1 - order) order

/-- Coalescing `while (order < total_order)` loop of `mem_free`. -/
def coalesce : Nat → mem_info → Nat → Nat → Option (mem_info × Nat × Nat)
  | 0, mi, mem_block, order => some (mi, mem_block, order)
  | fuel + 1, mi, mem_block, order =>
    if order < mi.total_order then
      let buddy := get_buddy mi mem_block order
      match is_allocated mi buddy order with
      | none => none
      | some true => some (mi, mem_block, order)
      | some false =>
        match read mi (order_addr mi buddy) 4 with
        | none => none
        | some buddy_order =>
          if buddy_order ≠ order then some (mi, mem_block, order)
          else
            match SLIST_REMOVE mi order buddy with
            | none => none
            | some mi1 =>
              let mb := if buddy < mem_block then buddy else mem_block
              match set_free mi1 mb order with
              | none => none
              | some mi2 =>
                match write mi2 (order_addr mi2 mb) 4 (order + 1) with
                | none => none
                | some mi3 => coalesce fuel mi3 mb (order + 1)
    else some (mi, mem_block, order)

/-- Function `mem_free`: the `int` returned and the new state; the pointer 0 is `NULL`. -/
def mem_free (mi : mem_info) (ptr : Nat) : Option (Int × mem_info) :=
  if ptr = 0 then some (-1, mi)
  else
    match get_block_order mi ptr with
    | none => none
    | some order =>
      if to_unsigned order < mi.min_order ∨ to_unsigned order > mi.total_order then
        some (-1, mi)
      else
        match coalesce (mi.total_order - order.toNat) mi ptr order.toNat with
        | none => none
        | some r =>
          match write r.1 (order_addr r.1 r.2.1) 4 r.2.2 with
          | none => none
          | some mi1 =>
            match set_free mi1 r.2.1 r.2.2 with
            | none => none
            | some mi2 =>
              match SLIST_INSERT_HEAD mi2 r.2.2 r.2.1 with
              | none => none
              | some mi3 => some (0, mi3)

/-- Conversion of an `unsigned int` value to the `int` that `printf` shows for `%d`. -/
def to_signed (v : Nat) : Int :=
  if v % 2 ^ 32 < 2 ^ 31 then ((v % 2 ^ 32 : Nat) : Int) else ((v % 2 ^ 32 : Nat) : Int) - 2 ^ 32

/-- Loop `SLIST_FOREACH` of `mem_dump` over one list, from the element `mem_block`, at
bitmap index `i`; the state is the output so far and `curr_loc`.  A walk of more steps
than the memory has bytes does not end. -/
def dump_list (mi : mem_info) (i : Nat) :
    Nat → Nat → List (Int × Bool) × Nat → Option (List (Int × Bool) × Nat)
  | 0, _, _ => none
  | fuel + 1, mem_block, st =>
    if mem_block = 0 then some st
    else
      match read mi (order_addr mi mem_block) 4, read mi mem_block mi.ptr_size with
      | some order, some nxt =>
        let z := ZERO_REL_ADDR mi mem_block
        let e := (z + (1 <<< order) % 2 ^ 32) % 2 ^ 32
        if z = (i * mi.min_size) % 2 ^ 32 then
          dump_list mi i fuel nxt
            (st.1 ++ [(to_signed ((e + 2 ^ 32 - z) % 2 ^ 32), false)], e / mi.min_size)
        else dump_list mi i fuel nxt st
      | _, _ => none

/-- The `for (j = min_order; j <= total_order; j++)` loop of `mem_dump` at index `i`. -/
def dump_free (mi : mem_info) (i : Nat) (st : List (Int × Bool) × Nat) :
    Option (List (Int × Bool) × Nat) :=
  (List.range' mi.min_order (mi.total_order + 1 - mi.min_order)).foldl
    (fun s j => s.bind (fun st1 =>
      match SLIST_FIRST mi j with
      | none => none
      | some first => dump_list mi i (mi.brk - mi.base_addr + 1) first st1)) (some st)

/-- Body of the outer loop of `mem_dump` at bitmap index `i`. -/
def dump_step (mi : mem_info) (st : List (Int × Bool) × Nat) (i : Nat) :
    Option (List (Int × Bool) × Nat) :=
  match BIT_ISSET mi i with
  | none => none
  | some true =>
    some (st.1 ++ [(to_signed ((((i + 1 + 2 ^ 32 - st.2) % 2 ^ 32) * mi.min_size) % 2 ^ 32),
      true)], i + 1)
  | some false => dump_free mi i st

/-- Function `mem_dump`: the segments in the order printed, each with the number `%d`
shows and whether it is printed as allocated.  The loop runs over
`i = 0 .. total_size / min_size` inclusive. -/
def mem_dump (mi : mem_info) : Option (List (Int × Bool)) :=
  ((List.range (mi.total_size / mi.min_size + 1)).foldl
    (fun s i => s.bind (fun st => dump_step mi st i)) (some ([], 0))).map Prod.fst

/-- Memory as a process finds it in a heap it has not used before: every byte zero. -/
def fresh : Nat → Nat := fun _ => 0

/-- The address `sbrk` returns for the arena in the runs below. -/
def heap_base : Nat := 0x08100000

/-- State after a call `mem_alloc(size)` in state `s`. -/
def alloc_state (s : Option mem_info) (size : Nat) : Option mem_info :=
  s.bind (fun m => (mem_alloc m size).map Prod.snd)

/-- Pointer returned by a call `mem_alloc(size)` in state `s`. -/
def alloc_ptr (s : Option mem_info) (size : Nat) : Option Nat :=
  s.bind (fun m => (mem_alloc m size).map Prod.fst)

/-- State after a call `mem_free(ptr)` in state `s`. -/
def free_state (s : Option mem_info) (ptr : Nat) : Option mem_info :=
  s.bind (fun m => (mem_free m ptr).map Prod.snd)

/-- Value returned by a call `mem_free(ptr)` in state `s`. -/
def free_ret (s : Option mem_info) (ptr : Nat) : Option Int :=
  s.bind (fun m => (mem_free m ptr).map Prod.fst)

/-- The pointer in the head of `free_lists[i]` in state `s`. -/
def first (s : Option mem_info) (i : Nat) : Option Nat :=
  s.bind (fun m => SLIST_FIRST m i)

/-- The link `elm->link.sle_next` of the element at address `elm` in state `s`. -/
def link (s : Option mem_info) (elm : Nat) : Option Nat :=
  s.bind (fun m => read m elm m.ptr_size)

/-- The bitmap indices below `n` whose bit `BIT_ISSET` finds set in state `s`. -/
def set_bits (s : Option mem_info) (n : Nat) : Option (List Nat) :=
  s.map (fun m => (List.range n).filter (fun b => BIT_ISSET m b == some true))

end Prog

/-- ILP32 run: `mem_init(16, 4)`. -/
def small0 : Option Prog.mem_info := Prog.mem_init 4 Prog.heap_base Prog.fresh 16 4

/-- ILP32 run: then `mem_alloc(8)`, which returns offset 0. -/
def small1 : Option Prog.mem_info := Prog.alloc_state small0 8

/-- ILP32 run: then `mem_alloc(4)`, which returns offset 8. -/
def small2 : Option Prog.mem_info := Prog.alloc_state small1 4

/-- ILP32 run: then `mem_free` of offset 8. -/
def small3 : Option Prog.mem_info := Prog.free_state small2 (Prog.heap_base + 8)

/-- ILP32 run: `mem_init(64, 4)`. -/
def mid0 : Option Prog.mem_info := Prog.mem_init 4 Prog.heap_base Prog.fresh 64 4

/-- ILP32 run: then `mem_alloc(4)`, which returns offset 0. -/
def mid1 : Option Prog.mem_info := Prog.alloc_state mid0 4

/-- ILP32 run: then `mem_free` of offset 0. -/
def mid2 : Option Prog.mem_info := Prog.free_state mid1 Prog.heap_base

/-- ILP32 run: `mem_init(4, 1)`. -/
def unit0 : Option Prog.mem_info := Prog.mem_init 4 Prog.heap_base Prog.fresh 4 1

/-- ILP32 run: then `mem_alloc(4)`, which returns offset 0. -/
def unit1 : Option Prog.mem_info := Prog.alloc_state unit0 4

/-- LP64 run: `mem_init(4096, 16)`. -/
def wide0 : Option Prog.mem_info := Prog.mem_init 8 Prog.heap_base Prog.fresh 4096 16

/-- LP64 run: then `mem_alloc(4096)`, which returns offset 0. -/
def wide1 : Option Prog.mem_info := Prog.alloc_state wide0 4096
/-! ## Bit tricks: `log_2` and `upper_pow_2` -/

theorem log_2_two_pow : ∀ k, k < 32 → log_2 (2 ^ k) = k := by decide

theorem smear_step (h y r s : Nat) (hy : y < 2 ^ (h + 1))
    (hr : ∀ i, i ≤ h → h < i + r → y.testBit i = true) (hs : s ≤ r) :
    (y ||| (y >>> s)) < 2 ^ (h + 1) ∧
      ∀ i, i ≤ h → h < i + (r + s) → (y ||| (y >>> s)).testBit i = true := by
  constructor
  · apply Nat.or_lt_two_pow hy
    rw [Nat.shiftRight_eq_div_pow]
    exact lt_of_le_of_lt (Nat.div_le_self _ _) hy
  · intro i hi hlt
    rw [Nat.testBit_or, Nat.testBit_shiftRight]
    by_cases hc : h < i + r
    · simp [hr i hi hc]
    · have : y.testBit (s + i) = true := hr (s + i) (by omega) (by omega)
      simp [this]

theorem all_ones_of_bits (h y : Nat) (hy : y < 2 ^ (h + 1))
    (hb : ∀ i, i ≤ h → y.testBit i = true) : y = 2 ^ (h + 1) - 1 := by
  apply Nat.eq_of_testBit_eq
  intro i
  rw [Nat.testBit_two_pow_sub_one]
  by_cases hi : i ≤ h
  · simp [hb i hi, Nat.lt_succ_of_le hi]
  · have h1 : y < 2 ^ i := lt_of_lt_of_le hy (Nat.pow_le_pow_right (by norm_num) (by omega))
    simp [Nat.testBit_lt_two_pow h1]; omega

theorem upper_pow_2_of_pred (x h : Nat) (hlo : 2 ^ h ≤ x) (hhi : x < 2 ^ (h + 1)) (hh : h ≤ 30) :
    upper_pow_2 (x + 1) = 2 ^ (h + 1) := by
  have hx32 : x < 2 ^ 32 := lt_of_lt_of_le hhi (Nat.pow_le_pow_right (by norm_num) (by omega))
  have htop : x.testBit h = true := by
    rw [Nat.testBit_to_div_mod]
    have : x / 2 ^ h = 1 := by
      apply Nat.div_eq_of_lt_le
      · simpa using hlo
      · simpa [pow_succ, Nat.mul_comm] using hhi
    simp [this]
  have h0 : ∀ i, i ≤ h → h < i + 1 → x.testBit i = true := by
    intro i hi hlt
    have : i = h := by omega
    rw [this]; exact htop
  obtain ⟨b1, t1⟩ := smear_step h x 1 1 hhi h0 (by omega)
  obtain ⟨b2, t2⟩ := smear_step h _ 2 2 b1 t1 (by omega)
  obtain ⟨b3, t3⟩ := smear_step h _ 4 4 b2 t2 (by omega)
  obtain ⟨b4, t4⟩ := smear_step h _ 8 8 b3 t3 (by omega)
  obtain ⟨b5, t5⟩ := smear_step h _ 16 16 b4 t4 (by omega)
  have hall := all_ones_of_bits h _ b5 (fun i hi => t5 i hi (by omega))
  have hpos : 0 < 2 ^ (h + 1) := Nat.pow_pos (by norm_num)
  have hlt : 2 ^ (h + 1) < 2 ^ 32 := Nat.pow_lt_pow_right (by norm_num) (by omega)
  unfold upper_pow_2
  have e0 : (x + 1 + 2 ^ 32 - 1) % 2 ^ 32 = x := by
    have : x + 1 + 2 ^ 32 - 1 = x + 2 ^ 32 := by omega
    rw [this, Nat.add_mod_right, Nat.mod_eq_of_lt hx32]
  simp only [e0]
  rw [hall]
  have : 2 ^ (h + 1) - 1 + 1 = 2 ^ (h + 1) := by omega
  rw [this, Nat.mod_eq_of_lt hlt]

theorem upper_pow_2_spec (t : Nat) (h1 : 1 ≤ t) (h2 : t ≤ 2 ^ 31) :
    ∃ k, k ≤ 31 ∧ upper_pow_2 t = 2 ^ k ∧ t ≤ 2 ^ k ∧ ∀ j, t ≤ 2 ^ j → k ≤ j := by
  by_cases ht : t = 1
  · subst ht
    exact ⟨0, by omega, by decide, by norm_num, fun j _ => Nat.zero_le j⟩
  · obtain ⟨x, rfl⟩ : ∃ x, t = x + 1 := ⟨t - 1, by omega⟩
    have hx0 : x ≠ 0 := by omega
    have hlo := Nat.pow_log_le_self 2 hx0
    have hhi := Nat.lt_pow_succ_log_self (b := 2) (by norm_num) x
    have hh : Nat.log 2 x ≤ 30 := by
      by_contra hc
      have : 2 ^ 31 ≤ 2 ^ Nat.log 2 x := Nat.pow_le_pow_right (by norm_num) (by omega)
      omega
    refine ⟨Nat.log 2 x + 1, by omega, upper_pow_2_of_pred x _ hlo hhi hh, by omega, ?_⟩
    intro j hj
    by_contra hc
    have : 2 ^ j ≤ 2 ^ Nat.log 2 x := Nat.pow_le_pow_right (by norm_num) (by omega)
    omega

/-! ## Elementary facts about the embedding -/

theorem one_shiftLeft_eq (k : Nat) : 1 <<< k = 2 ^ k := by
  rw [Nat.shiftLeft_eq, Nat.one_mul]

theorem upper_pow_2_two_pow (k : Nat) (hk : k ≤ 31) : upper_pow_2 (2 ^ k) = 2 ^ k := by
  have h : ∀ k, k < 32 → upper_pow_2 (2 ^ k) = 2 ^ k := by decide
  exact h k (by omega)

theorem log_2_upper_pow_2_two_pow (k : Nat) (hk : k ≤ 31) : log_2 (upper_pow_2 (2 ^ k)) = k := by
  rw [upper_pow_2_two_pow k hk, log_2_two_pow k (by omega)]

theorem init_fl_fold (l : List Nat) (f : Nat → List Nat) (hf : f = fun _ => []) :
    l.foldl (fun fl i => Function.update fl i []) f = fun _ => [] := by
  induction l generalizing f with
  | nil => simpa using hf
  | cons a l ih =>
    simp only [List.foldl_cons]
    apply ih
    subst hf
    funext j
    by_cases h : j = a
    · subst h; simp
    · simp [Function.update_noteq h]

theorem mem_init_total_size (t m : Nat) : (mem_init t m).total_size = upper_pow_2 t := rfl
theorem mem_init_min_size (t m : Nat) : (mem_init t m).min_size = upper_pow_2 m := rfl
theorem mem_init_total_order (t m : Nat) :
    (mem_init t m).total_order = log_2 (upper_pow_2 t) := rfl
theorem mem_init_min_order (t m : Nat) :
    (mem_init t m).min_order = log_2 (upper_pow_2 m) := rfl
theorem mem_init_bitmap (t m : Nat) : (mem_init t m).bitmap = fun _ => false := rfl

theorem mem_init_free_lists (t m : Nat) :
    (mem_init t m).free_lists = Function.update (fun _ => []) (mem_init t m).total_order [0] := by
  simp only [mem_init]
  rw [init_fl_fold _ _ rfl]

theorem mem_init_hdr_order (t m : Nat) :
    (mem_init t m).hdr_order = Function.update (fun _ => 0) 0 (mem_init t m).total_order := rfl

theorem mem_init_wf (t m : Nat) (ht1 : 1 ≤ t) (ht2 : t ≤ 2 ^ 31) (hm1 : 1 ≤ m)
    (hm2 : m ≤ 2 ^ 31) : ArenaWF (mem_init t m) := by
  obtain ⟨k, hk, ek, -, -⟩ := upper_pow_2_spec t ht1 ht2
  obtain ⟨j, hj, ej, -, -⟩ := upper_pow_2_spec m hm1 hm2
  refine ⟨?_, ?_, ?_, ?_⟩
  · rw [mem_init_total_order, mem_init_total_size, ek, log_2_two_pow k (by omega)]
  · rw [mem_init_min_order, mem_init_min_size, ej, log_2_two_pow j (by omega)]
  · rw [mem_init_total_order, ek, log_2_two_pow k (by omega)]; exact hk
  · rw [mem_init_min_order, ej, log_2_two_pow j (by omega)]; exact hj

theorem mem_init_orders_le (t m : Nat) (hm1 : 1 ≤ m) (hmt : m ≤ t) (ht2 : t ≤ 2 ^ 31) :
    (mem_init t m).min_order ≤ (mem_init t m).total_order := by
  obtain ⟨k, hk, ek, hkt, -⟩ := upper_pow_2_spec t (by omega) ht2
  obtain ⟨j, hj, ej, -, hjl⟩ := upper_pow_2_spec m hm1 (by omega)
  rw [mem_init_total_order, mem_init_min_order, ek, ej, log_2_two_pow k (by omega),
    log_2_two_pow j (by omega)]
  exact hjl k (by omega)

/-! ## `mem_alloc`: the free-list scan -/

theorem alloc_scan_none_iff (mi : mem_info) (order : Nat) :
    ∀ fuel i, fuel = mi.total_order + 1 - i →
      ((alloc_scan mi order fuel i).1 = none ↔
        ∀ j, i ≤ j → j ≤ mi.total_order → mi.free_lists j = []) := by
  intro fuel
  induction fuel with
  | zero =>
    intro i hf
    simp only [alloc_scan, true_iff]
    intro j h1 h2
    omega
  | succ fuel ih =>
    intro i hf
    have hi : i ≤ mi.total_order := by omega
    rw [alloc_scan, if_pos hi]
    cases hl : mi.free_lists i with
    | nil =>
      simp only
      rw [ih (i + 1) (by omega)]
      constructor
      · intro h j h1 h2
        by_cases hij : j = i
        · subst hij; exact hl
        · exact h j (by omega) h2
      · intro h j h1 h2
        exact h j (by omega) h2
    | cons b rest =>
      simp only
      constructor
      · intro h; cases h
      · intro h
        have := h i (Nat.le_refl i) hi
        rw [hl] at this
        cases this

theorem alloc_scan_none_state (mi : mem_info) (order : Nat) :
    ∀ fuel i, (alloc_scan mi order fuel i).1 = none → (alloc_scan mi order fuel i).2 = mi := by
  intro fuel
  induction fuel with
  | zero => intro i _; rfl
  | succ fuel ih =>
    intro i
    rw [alloc_scan]
    by_cases hi : i ≤ mi.total_order
    · rw [if_pos hi]
      cases hl : mi.free_lists i with
      | nil => simpa using ih (i + 1)
      | cons b rest =>
        intro h
        exact absurd h (by simp [alloc_take])
    · rw [if_neg hi]; intro _; rfl

theorem alloc_order_eq_max (mi : mem_info) (size : Nat) :
    alloc_order mi size = log_2 (upper_pow_2 (max size mi.min_size)) := by
  unfold alloc_order
  by_cases h : size < mi.min_size
  · rw [if_pos h, Nat.max_eq_right (Nat.le_of_lt h)]
  · rw [if_neg h, Nat.max_eq_left (by omega)]

theorem mem_alloc_big (mi : mem_info) (size : Nat) (h : size > mi.total_size) :
    mem_alloc mi size = (none, mi) := by
  unfold mem_alloc
  rw [if_pos h]

theorem mem_alloc_scan (mi : mem_info) (size : Nat) (h : ¬ size > mi.total_size) :
    mem_alloc mi size =
      alloc_scan mi (alloc_order mi size) (mi.total_order + 1 - alloc_order mi size)
        (alloc_order mi size) := by
  unfold mem_alloc
  rw [if_neg h]

theorem mem_alloc_none_iff (mi : mem_info) (size : Nat) :
    (mem_alloc mi size).1 = none ↔
      (size > mi.total_size ∨
        ∀ i, alloc_order mi size ≤ i → i ≤ mi.total_order → mi.free_lists i = []) := by
  by_cases h : size > mi.total_size
  · rw [mem_alloc_big mi size h]
    simp only [h, true_or]
  · rw [mem_alloc_scan mi size h]
    have := alloc_scan_none_iff mi (alloc_order mi size)
      (mi.total_order + 1 - alloc_order mi size) (alloc_order mi size) rfl
    rw [this]
    constructor
    · intro hh; exact Or.inr hh
    · intro hh
      rcases hh with hh | hh
      · exact absurd hh h
      · exact hh

theorem mem_alloc_none_state (mi : mem_info) (size : Nat)
    (h : (mem_alloc mi size).1 = none) : (mem_alloc mi size).2 = mi := by
  by_cases hs : size > mi.total_size
  · rw [mem_alloc_big mi size hs]
  · rw [mem_alloc_scan mi size hs] at h ⊢
    exact alloc_scan_none_state mi _ _ _ h

/-! ## `mem_alloc`: the split loop and the block taken -/

theorem split_step_free_lists (mi : mem_info) (mb i : Nat) :
    (split_step mi mb i).free_lists =
      Function.update mi.free_lists i ((mb + 2 ^ i) :: mi.free_lists i) := by
  simp only [split_step, one_shiftLeft_eq]

theorem split_step_hdr_order (mi : mem_info) (mb i : Nat) :
    (split_step mi mb i).hdr_order = Function.update mi.hdr_order (mb + 2 ^ i) i := by
  simp only [split_step, one_shiftLeft_eq]

theorem split_step_bitmap (mi : mem_info) (mb i : Nat) :
    (split_step mi mb i).bitmap = mi.bitmap := rfl

theorem split_step_params (mi : mem_info) (mb i : Nat) :
    (split_step mi mb i).total_size = mi.total_size ∧
      (split_step mi mb i).total_order = mi.total_order ∧
      (split_step mi mb i).min_size = mi.min_size ∧
      (split_step mi mb i).min_order = mi.min_order := ⟨rfl, rfl, rfl, rfl⟩

theorem split_loop_succ_gt (mb order i : Nat) (mi : mem_info) (h : i + 1 > order) :
    split_loop mb order (i + 1) mi = split_loop mb order i (split_step mi mb i) := by
  rw [split_loop, if_pos h]

theorem split_loop_le (mb order i : Nat) (mi : mem_info) (h : i ≤ order) :
    split_loop mb order i mi = (mi, i) := by
  cases i with
  | zero => rfl
  | succ i => rw [split_loop, if_neg (by omega)]

theorem split_loop_snd (mb order : Nat) :
    ∀ i mi, order ≤ i → (split_loop mb order i mi).2 = order := by
  intro i
  induction i with
  | zero =>
    intro mi h
    rw [split_loop_le mb order 0 mi (by omega)]
    simp only
    omega
  | succ i ih =>
    intro mi h
    by_cases hgt : i + 1 > order
    · rw [split_loop_succ_gt mb order i mi hgt]
      exact ih _ (by omega)
    · rw [split_loop_le mb order (i + 1) mi (by omega)]
      simp only
      omega

theorem split_loop_frame (mb order : Nat) :
    ∀ i mi, (split_loop mb order i mi).1.bitmap = mi.bitmap ∧
      (split_loop mb order i mi).1.total_size = mi.total_size ∧
      (split_loop mb order i mi).1.total_order = mi.total_order ∧
      (split_loop mb order i mi).1.min_size = mi.min_size ∧
      (split_loop mb order i mi).1.min_order = mi.min_order := by
  intro i
  induction i with
  | zero => intro mi; exact ⟨rfl, rfl, rfl, rfl, rfl⟩
  | succ i ih =>
    intro mi
    by_cases hgt : i + 1 > order
    · rw [split_loop_succ_gt mb order i mi hgt]
      exact ih _
    · rw [split_loop_le mb order (i + 1) mi (by omega)]
      exact ⟨rfl, rfl, rfl, rfl, rfl⟩

theorem alloc_take_fst (mi : mem_info) (order i mb : Nat) (rest : List Nat) :
    (alloc_take mi order i mb rest).1 = some mb := rfl

theorem alloc_take_bitmap (mi : mem_info) (order i mb : Nat) (rest : List Nat)
    (h : order ≤ i) :
    (alloc_take mi order i mb rest).2.bitmap =
      BIT_SET mi.bitmap (get_last_bit mi mb order) := by
  have hf := split_loop_frame mb order i
    { mi with free_lists := Function.update mi.free_lists i rest }
  have hs := split_loop_snd mb order i
    { mi with free_lists := Function.update mi.free_lists i rest } h
  simp only [alloc_take, set_allocated, get_last_bit, hs, hf.1, hf.2.2.2.1]

theorem alloc_take_params (mi : mem_info) (order i mb : Nat) (rest : List Nat) :
    (alloc_take mi order i mb rest).2.total_size = mi.total_size ∧
      (alloc_take mi order i mb rest).2.total_order = mi.total_order ∧
      (alloc_take mi order i mb rest).2.min_size = mi.min_size ∧
      (alloc_take mi order i mb rest).2.min_order = mi.min_order := by
  have hf := split_loop_frame mb order i
    { mi with free_lists := Function.update mi.free_lists i rest }
  simp only [alloc_take, set_allocated]
  exact ⟨hf.2.1, hf.2.2.1, hf.2.2.2.1, hf.2.2.2.2⟩

/-- A successful scan took the first block of the lowest non-empty list at or above `i`. -/
theorem alloc_scan_some (mi : mem_info) (order a : Nat) :
    ∀ fuel i, (alloc_scan mi order fuel i).1 = some a →
      ∃ j rest, i ≤ j ∧ j ≤ mi.total_order ∧
        (∀ j1, i ≤ j1 → j1 < j → mi.free_lists j1 = []) ∧
        mi.free_lists j = a :: rest ∧
        alloc_scan mi order fuel i = alloc_take mi order j a rest := by
  intro fuel
  induction fuel with
  | zero =>
    intro i h
    simp [alloc_scan] at h
  | succ fuel ih =>
    intro i h
    rw [alloc_scan] at h ⊢
    by_cases hi : i ≤ mi.total_order
    · rw [if_pos hi] at h ⊢
      cases hl : mi.free_lists i with
      | nil =>
        rw [hl] at h
        simp only at h ⊢
        obtain ⟨j, rest, h1, h2, h3, h4, h5⟩ := ih (i + 1) h
        refine ⟨j, rest, by omega, h2, ?_, h4, h5⟩
        intro j1 hj1 hj2
        by_cases he : j1 = i
        · rw [he]; exact hl
        · exact h3 j1 (by omega) hj2
      | cons b rest =>
        rw [hl] at h
        simp only [alloc_take_fst, Option.some.injEq] at h
        subst h
        exact ⟨i, rest, Nat.le_refl i, hi, fun j1 h1 h2 => by omega, hl, rfl⟩
    · rw [if_neg hi] at h
      simp at h

theorem mem_alloc_some (mi : mem_info) (size a : Nat) (h : (mem_alloc mi size).1 = some a) :
    size ≤ mi.total_size ∧
    ∃ j rest, alloc_order mi size ≤ j ∧ j ≤ mi.total_order ∧
      (∀ j1, alloc_order mi size ≤ j1 → j1 < j → mi.free_lists j1 = []) ∧
      mi.free_lists j = a :: rest ∧
      mem_alloc mi size = alloc_take mi (alloc_order mi size) j a rest := by
  by_cases hs : size > mi.total_size
  · rw [mem_alloc_big mi size hs] at h
    cases h
  · rw [mem_alloc_scan mi size hs] at h ⊢
    exact ⟨by omega, alloc_scan_some mi _ a _ _ h⟩

/-! ## `next_offset`, `get_block_order` and the validation in `mem_free` -/

theorem next_offset_fuel_indep (mi : mem_info) (start : Nat) :
    ∀ f1 f2 n, mi.total_size / mi.min_size - (start + n) ≤ f1 →
      mi.total_size / mi.min_size - (start + n) ≤ f2 →
      next_offset_fuel mi start f1 n = next_offset_fuel mi start f2 n := by
  intro f1
  induction f1 with
  | zero =>
    intro f2 n h1 _
    cases f2 with
    | zero => rfl
    | succ f2 =>
      have hge : start + n ≥ mi.total_size / mi.min_size := by omega
      simp only [next_offset_fuel, if_pos hge]
  | succ f1 ih =>
    intro f2 n h1 h2
    cases f2 with
    | zero =>
      have hge : start + n ≥ mi.total_size / mi.min_size := by omega
      simp only [next_offset_fuel, if_pos hge]
    | succ f2 =>
      simp only [next_offset_fuel]
      by_cases hge : start + n ≥ mi.total_size / mi.min_size
      · rw [if_pos hge, if_pos hge]
      · rw [if_neg hge, if_neg hge]
        by_cases hb : BIT_ISSET mi.bitmap (start + n) = true
        · rw [if_pos hb, if_pos hb]
        · rw [if_neg hb, if_neg hb]
          exact ih f2 (2 * n + 1) (by omega) (by omega)

/-- The recursion equation of `next_offset`, as written in the source. -/
theorem next_offset_unfold (mi : mem_info) (start n : Nat) :
    next_offset mi start n =
      if start + n ≥ mi.total_size / mi.min_size then -1
      else if BIT_ISSET mi.bitmap (start + n) then ((start + n : Nat) : Int)
      else next_offset mi start (2 * n + 1) := by
  unfold next_offset
  by_cases hge : start + n ≥ mi.total_size / mi.min_size
  · rw [if_pos hge]
    have : mi.total_size / mi.min_size - (start + n) = 0 := by omega
    rw [this]
    rfl
  · rw [if_neg hge]
    obtain ⟨f, hf⟩ : ∃ f, mi.total_size / mi.min_size - (start + n) = f + 1 :=
      ⟨mi.total_size / mi.min_size - (start + n) - 1, by omega⟩
    rw [hf]
    simp only [next_offset_fuel, if_neg hge]
    by_cases hb : BIT_ISSET mi.bitmap (start + n) = true
    · rw [if_pos hb, if_pos hb]
    · rw [if_neg hb, if_neg hb]
      exact next_offset_fuel_indep mi start _ _ _ (by omega) (Nat.le_refl _)

theorem two_mul_pred_pow (j : Nat) : 2 * (2 ^ j - 1) + 1 = 2 ^ (j + 1) - 1 := by
  have : 0 < 2 ^ j := Nat.pow_pos (by norm_num)
  rw [pow_succ]
  omega

/-- The probe returns the first set bit of the sequence `start + 2 ^ j - 1`. -/
theorem next_offset_found (mi : mem_info) (start d : Nat)
    (hlt : start + (2 ^ d - 1) < mi.total_size / mi.min_size)
    (hset : mi.bitmap (start + (2 ^ d - 1)) = true) :
    ∀ g j0, j0 + g = d →
      (∀ j, j0 ≤ j → j < d → mi.bitmap (start + (2 ^ j - 1)) = false) →
      next_offset mi start (2 ^ j0 - 1) = ((start + (2 ^ d - 1) : Nat) : Int) := by
  intro g
  induction g with
  | zero =>
    intro j0 hj _
    have : j0 = d := by omega
    subst this
    rw [next_offset_unfold, if_neg (by omega), if_pos (by simpa [BIT_ISSET] using hset)]
  | succ g ih =>
    intro j0 hj hclear
    have hle : 2 ^ j0 ≤ 2 ^ d := Nat.pow_le_pow_right (by norm_num) (by omega)
    rw [next_offset_unfold, if_neg (by omega),
      if_neg (by simpa [BIT_ISSET] using hclear j0 (Nat.le_refl _) (by omega)), two_mul_pred_pow]
    exact ih (j0 + 1) (by omega) (fun j h1 h2 => hclear j (by omega) h2)

theorem two_pow_pos (k : Nat) : 0 < 2 ^ k := Nat.pow_pos (by norm_num)

theorem two_pow_succ (k : Nat) : 2 ^ (k + 1) = 2 ^ k + 2 ^ k := by
  rw [pow_succ]; omega

theorem two_pow_le {j k : Nat} (h : j ≤ k) : 2 ^ j ≤ 2 ^ k :=
  Nat.pow_le_pow_right (by norm_num) h

theorem two_pow_lt {j k : Nat} (h : j < k) : 2 ^ j < 2 ^ k :=
  Nat.pow_lt_pow_right (by norm_num) h

theorem two_pow_succ_le {j k : Nat} (h : j < k) : 2 ^ j + 2 ^ j ≤ 2 ^ k := by
  rw [← two_pow_succ]
  exact two_pow_le h

theorem two_pow_dvd {j k : Nat} (h : j ≤ k) : 2 ^ j ∣ 2 ^ k := Nat.pow_dvd_pow 2 h

theorem two_pow_inj_le {j k : Nat} (h : 2 ^ j ≤ 2 ^ k) : j ≤ k :=
  (Nat.pow_le_pow_iff_right (by norm_num)).1 h

/-- An aligned block that starts inside an aligned block at least as large ends inside it. -/
theorem nested_of_start_in {o k p j : Nat} (ho : 2 ^ k ∣ o) (hp : 2 ^ j ∣ p) (hjk : j ≤ k)
    (_h1 : o ≤ p) (h2 : p < o + 2 ^ k) : p + 2 ^ j ≤ o + 2 ^ k := by
  have hd : 2 ^ j ∣ o + 2 ^ k - p := by
    apply Nat.dvd_sub'
    · exact Nat.dvd_add (Nat.dvd_trans (two_pow_dvd hjk) ho) (two_pow_dvd hjk)
    · exact hp
  have := Nat.le_of_dvd (by omega) hd
  omega

/-- A block aligned to `2 ^ j` that starts inside an aligned block of order `k ≤ j` starts
where that block starts. -/
theorem start_eq_of_start_in {o k p j : Nat} (ho : 2 ^ k ∣ o) (hp : 2 ^ j ∣ p) (hkj : k ≤ j)
    (h1 : o ≤ p) (h2 : p < o + 2 ^ k) : p = o := by
  have hd : 2 ^ k ∣ p - o := Nat.dvd_sub' (Nat.dvd_trans (two_pow_dvd hkj) hp) ho
  by_contra hne
  have := Nat.le_of_dvd (by omega) hd
  omega

theorem dvd_half_cases {a k : Nat} (h : 2 ^ k ∣ a) :
    2 ^ (k + 1) ∣ a ∨ ∃ o, 2 ^ (k + 1) ∣ o ∧ a = o + 2 ^ k := by
  obtain ⟨q, rfl⟩ := h
  rcases Nat.even_or_odd' q with ⟨r, hr | hr⟩
  · left
    exact ⟨r, by rw [hr, pow_succ]; ring⟩
  · right
    exact ⟨2 ^ (k + 1) * r, ⟨r, rfl⟩, by rw [hr, pow_succ]; ring⟩

theorem get_buddy_eq_xor (a k : Nat) : get_buddy a k = a ^^^ 2 ^ k := by
  rw [get_buddy, one_shiftLeft_eq]

theorem get_buddy_low (o k : Nat) (h : 2 ^ (k + 1) ∣ o) : get_buddy o k = o + 2 ^ k := by
  rw [get_buddy_eq_xor]
  obtain ⟨q, rfl⟩ := h
  have hlt : 2 ^ k < 2 ^ (k + 1) := two_pow_lt (by omega)
  apply Nat.eq_of_testBit_eq
  intro j
  rw [Nat.testBit_xor, Nat.testBit_mul_pow_two_add q hlt, Nat.testBit_mul_pow_two,
    Nat.testBit_two_pow]
  by_cases hj : j < k + 1
  · have : ¬ (j ≥ k + 1) := by omega
    simp [hj, this]
  · have h1 : j ≥ k + 1 := by omega
    have h2 : k ≠ j := by omega
    simp [hj, h1, h2]

theorem get_buddy_involutive (a k : Nat) : get_buddy (get_buddy a k) k = a := by
  rw [get_buddy_eq_xor, get_buddy_eq_xor, Nat.xor_cancel_right]

theorem get_buddy_high (o k : Nat) (h : 2 ^ (k + 1) ∣ o) : get_buddy (o + 2 ^ k) k = o := by
  rw [← get_buddy_low o k h, get_buddy_involutive]

theorem get_buddy_ne (a k : Nat) (h : 2 ^ k ∣ a) : get_buddy a k ≠ a := by
  have hp := two_pow_pos k
  rcases dvd_half_cases h with h1 | ⟨o, h1, rfl⟩
  · rw [get_buddy_low a k h1]; omega
  · rw [get_buddy_high o k h1]; omega

/-! ## The scenario of `test_buddy.c` -/

theorem free_state_eq {mi mi1 : mem_info} {a : Nat} {r : Int}
    (h : mem_free mi (some a) = some (r, mi1)) : free_state mi a = mi1 := by
  simp only [free_state, h]

theorem demo1_reach : Reachable 4096 128 demo1 [(0, 7)] :=
  Reachable.alloc_ok demo0 [] 128 0 Reachable.init (by decide)

theorem demo2_reach : Reachable 4096 128 demo2 [(128, 7), (0, 7)] :=
  Reachable.alloc_ok demo1 [(0, 7)] 128 128 demo1_reach (by decide)

theorem demo3_reach : Reachable 4096 128 demo3 [(128, 7)] := by
  obtain ⟨r, hr⟩ := Option.isSome_iff_exists.1
    (by decide : (mem_free demo2 (some 0)).isSome = true)
  have e : demo3 = r.2 := free_state_eq (r := r.1) hr
  rw [e]
  exact Reachable.free demo2 [(128, 7), (0, 7)] 0 7 r.1 r.2 demo2_reach (by decide) hr

/-! ## Initialisation -/

/-- C6 (P1, power-of-two rounding at init): for requested sizes `1 ≤ t, m ≤ 2 ^ 31`, after
`mem_init t m` the field `total_size` is the least power of two that is at least `t`,
`min_size` is the least power of two that is at least `m`, and the two orders are the
exponents of the two sizes. -/
theorem mem_init_pow2_rounding (t m : Nat) (ht1 : 1 ≤ t) (ht2 : t ≤ 2 ^ 31) (hm1 : 1 ≤ m)
    (hm2 : m ≤ 2 ^ 31) :
    IsLeastPow2 (mem_init t m).total_size t ∧ IsLeastPow2 (mem_init t m).min_size m ∧
      2 ^ (mem_init t m).total_order = (mem_init t m).total_size ∧
      2 ^ (mem_init t m).min_order = (mem_init t m).min_size := by
  obtain ⟨k, hk, ek, hkt, hkl⟩ := upper_pow_2_spec t ht1 ht2
  obtain ⟨j, hj, ej, hjm, hjl⟩ := upper_pow_2_spec m hm1 hm2
  obtain ⟨w1, w2, -, -⟩ := mem_init_wf t m ht1 ht2 hm1 hm2
  refine ⟨⟨⟨k, ?_⟩, ?_, ?_⟩, ⟨⟨j, ?_⟩, ?_, ?_⟩, w1.symm, w2.symm⟩
  · rw [mem_init_total_size, ek]
  · rw [mem_init_total_size, ek]; exact hkt
  · intro i hi
    rw [mem_init_total_size, ek]
    exact Nat.pow_le_pow_right (by norm_num) (hkl i hi)
  · rw [mem_init_min_size, ej]
  · rw [mem_init_min_size, ej]; exact hjm
  · intro i hi
    rw [mem_init_min_size, ej]
    exact Nat.pow_le_pow_right (by norm_num) (hjl i hi)

/-- C6 at the input of the spec: `mem_init 1000 100` yields `total_size = 1024`,
`min_size = 128`, orders 10 and 7, and these are the least powers of two. -/
theorem mem_init_pow2_rounding_witness :
    ((mem_init 1000 100).total_size = 1024 ∧ (mem_init 1000 100).min_size = 128 ∧
      (mem_init 1000 100).total_order = 10 ∧ (mem_init 1000 100).min_order = 7) ∧
    (IsLeastPow2 (mem_init 1000 100).total_size 1000 ∧
      IsLeastPow2 (mem_init 1000 100).min_size 100 ∧
      2 ^ (mem_init 1000 100).total_order = (mem_init 1000 100).total_size ∧
      2 ^ (mem_init 1000 100).min_order = (mem_init 1000 100).min_size) :=
  ⟨⟨by decide, by decide, by decide, by decide⟩,
    mem_init_pow2_rounding 1000 100 (by decide) (by decide) (by decide) (by decide)⟩

/-! ## Failure paths -/

/-- C2 (`mem_alloc` failure condition and atomicity): `mem_alloc mi size` returns `NULL`
if and only if `size > total_size` or every free list `free_lists[i]` with
`target ≤ i ≤ total_order` is empty, where
`target = log_2 (upper_pow_2 (max size min_size))`; and a call that returns `NULL` leaves
the bitmap and every free list (indeed the whole state) as before the call. -/
theorem mem_alloc_null_iff_atomic (mi : mem_info) (size : Nat) :
    ((mem_alloc mi size).1 = none ↔
      (size > mi.total_size ∨
        ∀ i, log_2 (upper_pow_2 (max size mi.min_size)) ≤ i → i ≤ mi.total_order →
          mi.free_lists i = [])) ∧
    ((mem_alloc mi size).1 = none →
      (mem_alloc mi size).2.bitmap = mi.bitmap ∧
      (mem_alloc mi size).2.free_lists = mi.free_lists ∧
      (mem_alloc mi size).2 = mi) := by
  constructor
  · rw [← alloc_order_eq_max]
    exact mem_alloc_none_iff mi size
  · intro h
    have := mem_alloc_none_state mi size h
    rw [this]
    exact ⟨rfl, rfl, rfl⟩

/-- C10 (P5 / I3, buddy identity): for an order `k < total_order` and an offset `a` of the
arena that is a multiple of `2 ^ k`, `get_buddy a k` is `a XOR 2 ^ k` (a function of `a`
and `k` alone: it takes no bitmap or free list), it is again an aligned offset of the
arena, and `get_buddy` is an involution; for an offset `o` that is a multiple of
`2 ^ (k + 1)` the second half `o + 2 ^ k`, which the split loop of `mem_alloc` links at the
head of `free_lists[k]` with header order `k`, is exactly `get_buddy o k`. -/
theorem get_buddy_identity (mi : mem_info) (hwf : ArenaWF mi) (k a : Nat)
    (hk : k < mi.total_order) (ha : a < mi.total_size) (hal : 2 ^ k ∣ a) :
    get_buddy a k = a ^^^ 2 ^ k ∧
    get_buddy a k < mi.total_size ∧ 2 ^ k ∣ get_buddy a k ∧
    get_buddy (get_buddy a k) k = a ∧
    (∀ o, 2 ^ (k + 1) ∣ o →
      o + (1 <<< k) = get_buddy o k ∧
      (split_step mi o k).free_lists k = get_buddy o k :: mi.free_lists k ∧
      (split_step mi o k).hdr_order (get_buddy o k) = k ∧
      (split_loop o k (k + 1) mi).1.free_lists k = get_buddy o k :: mi.free_lists k) := by
  have hp := two_pow_pos k
  refine ⟨get_buddy_eq_xor a k, ?_, ?_, get_buddy_involutive a k, ?_⟩
  · rw [hwf.1] at ha ⊢
    have hd : 2 ^ (k + 1) ∣ 2 ^ mi.total_order := two_pow_dvd (by omega)
    rcases dvd_half_cases hal with h1 | ⟨o, h1, rfl⟩
    · rw [get_buddy_low a k h1]
      have := nested_of_start_in (o := 0) (k := mi.total_order) (p := a) (j := k + 1)
        (Nat.dvd_zero _) h1 (by omega) (Nat.zero_le _) (by omega)
      rw [two_pow_succ] at this
      omega
    · rw [get_buddy_high o k h1]; omega
  · rcases dvd_half_cases hal with h1 | ⟨o, h1, rfl⟩
    · rw [get_buddy_low a k h1]
      exact Nat.dvd_add hal (Nat.dvd_refl _)
    · rw [get_buddy_high o k h1]
      exact Nat.dvd_trans (two_pow_dvd (by omega)) h1
  · intro o ho
    have hb := get_buddy_low o k ho
    refine ⟨by rw [one_shiftLeft_eq, hb], ?_, ?_, ?_⟩
    · rw [split_step_free_lists, hb, Function.update_same]
    · rw [split_step_hdr_order, hb, Function.update_same]
    · rw [split_loop_succ_gt o k k mi (by omega), split_loop_le o k k _ (Nat.le_refl _),
        split_step_free_lists, hb, Function.update_same]

/-- C10 on `mem_init 4096 128`: the buddy of the order-7 block at offset 128 is offset 0. -/
theorem get_buddy_identity_witness :
    (ArenaWF (mem_init 4096 128) ∧ 7 < (mem_init 4096 128).total_order ∧
      128 < (mem_init 4096 128).total_size ∧ 2 ^ 7 ∣ 128) ∧
    get_buddy 128 7 = 0 ∧ get_buddy 128 7 = 128 ^^^ 2 ^ 7 :=
  ⟨⟨mem_init_wf 4096 128 (by decide) (by decide) (by decide) (by decide), by decide,
      by decide, by decide⟩,
    by decide,
    (get_buddy_identity (mem_init 4096 128)
      (mem_init_wf 4096 128 (by decide) (by decide) (by decide) (by decide)) 7 128
      (by decide) (by decide) (by decide)).1⟩

/-! ## Invariant I1 -/

/-- C11 as stated fails: `mem_init(100, 1000)` takes sizes between 1 and `2 ^ 31` and
yields `min_order = 10` above `total_order = 7`. -/
theorem mem_init_orders_counterexample :
    (1 ≤ 100 ∧ 100 ≤ 2 ^ 31 ∧ 1 ≤ 1000 ∧ 1000 ≤ 2 ^ 31) ∧
      (mem_init 100 1000).min_order = 10 ∧ (mem_init 100 1000).total_order = 7 ∧
      (mem_init 100 1000).total_order < (mem_init 100 1000).min_order :=
  ⟨⟨by decide, by decide, by decide, by decide⟩, by decide, by decide, by decide⟩

/-- C11 amended (invariant I1 after init): for requested sizes `1 ≤ t, m ≤ 2 ^ 31` the
state of `mem_init t m` has `total_size` and `min_size` powers of two (with the two orders
as exponents); `min_order ≤ total_order` holds exactly when `min_size ≤ total_size`, and
in particular whenever `m ≤ t`: `mem_init` does not compare the two requests. -/
theorem mem_init_invariant_I1 (t m : Nat) (ht1 : 1 ≤ t) (ht2 : t ≤ 2 ^ 31) (hm1 : 1 ≤ m)
    (hm2 : m ≤ 2 ^ 31) :
    (mem_init t m).total_size = 2 ^ (mem_init t m).total_order ∧
      (mem_init t m).min_size = 2 ^ (mem_init t m).min_order ∧
      ((mem_init t m).min_order ≤ (mem_init t m).total_order ↔
        (mem_init t m).min_size ≤ (mem_init t m).total_size) ∧
      (m ≤ t → (mem_init t m).min_order ≤ (mem_init t m).total_order) := by
  obtain ⟨w1, w2, -, -⟩ := mem_init_wf t m ht1 ht2 hm1 hm2
  refine ⟨w1, w2, ?_, fun h => mem_init_orders_le t m hm1 h ht2⟩
  rw [w1, w2]
  exact ⟨fun h => two_pow_le h, fun h => two_pow_inj_le h⟩

/-- C11 amended, at `mem_init(4096, 128)`: orders 7 and 12. -/
theorem mem_init_invariant_I1_witness :
    (1 ≤ 4096 ∧ 4096 ≤ 2 ^ 31 ∧ 1 ≤ 128 ∧ 128 ≤ 2 ^ 31) ∧
      (mem_init 4096 128).min_order = 7 ∧ (mem_init 4096 128).total_order = 12 ∧
      (mem_init 4096 128).min_order ≤ (mem_init 4096 128).total_order :=
  ⟨⟨by decide, by decide, by decide, by decide⟩, by decide, by decide,
    (mem_init_invariant_I1 4096 128 (by decide) (by decide) (by decide) (by decide)).2.2.2
      (by decide)⟩

/-! ## Undetected double free -/

/-- C18 (undetected double free corrupts state): after `mem_init(4096, 128)`,
`mem_alloc(128) = 0`, `mem_alloc(128) = 128` and `mem_free(0)`, offset 0 is no longer handed
out; a second `mem_free(0)` recovers order 8 from the neighbour's bit, returns 0, clears the
terminating bit of the still handed-out block at offset 128, and leaves offset 0 both on
`free_lists[12]`, as a 4096-byte block, and on `free_lists[7]`: bytes 0 and 128 are then
each covered by two blocks. -/
theorem double_free_corrupts :
    Reachable 4096 128 demo3 [(128, 7)] ∧
      demo3.free_lists 7 = [0] ∧ demo3.bitmap 1 = true ∧
      get_block_order demo3 0 = 8 ∧
      (mem_free demo3 (some 0)).map Prod.fst = some 0 ∧
      demo5.bitmap 1 = false ∧
      demo5.free_lists 12 = [0] ∧ demo5.free_lists 7 = [0] ∧
      cover_count ([(128, 7)] ++ free_blocks demo5) 0 = 2 ∧
      cover_count ([(128, 7)] ++ free_blocks demo5) 128 = 2 :=
  ⟨demo3_reach, by decide, by decide, by decide, by decide, by decide, by decide, by decide,
    by decide, by decide⟩

/-! ## Stores of the caller into its blocks

`mem_free` decides whether to merge with the buddy by `is_allocated(buddy, order)`, which
looks only at the last bit of the buddy region, and then by `buddy->order != order`.  When
the buddy region is split and its first part handed out, the bit is clear and the `order`
word read belongs to the caller. -/

/-- C12 (no dependence on caller-owned memory) fails in the program: after
`mem_init(4096, 128)`, `mem_alloc(256)` (offset 0) and `mem_alloc(128)` (offset 256), the
caller stores 8 in the `order` word of its block at offset 256.  Bitmap and free lists are
the same in both states and only that word, inside a handed-out block, differs;
`mem_free(0)` returns 0 in the first state and does not return in the second, because it
reads the `order` field of the buddy at offset 256 and then unlinks a block that is on no
list. -/
theorem caller_memory_counterexample :
    Reachable 4096 128 own1 [(256, 7), (0, 8)] ∧
      own2 = caller_write own1 256 8 ∧
      own2.bitmap = own1.bitmap ∧ own2.free_lists = own1.free_lists ∧
      own2.hdr_order = Function.update own1.hdr_order 256 8 ∧
      own1.hdr_order 256 = 7 ∧
      (mem_free own1 (some 0)).map Prod.fst = some 0 ∧
      (mem_free own2 (some 0)).isNone = true :=
  ⟨Reachable.alloc_ok own0 [(0, 8)] 128 256
      (Reachable.alloc_ok demo0 [] 256 0 Reachable.init (by decide)) (by decide),
    rfl, rfl, rfl, rfl, by decide, by decide, by decide⟩

/-- C14 (effect of a successful `mem_free`) fails on a state of valid use.  After
`mem_init(4096, 128)`, `mem_alloc(1024)` (offset 0) and `mem_alloc(128)` (offset 1024),
`mem_free` of offset 0 returns 0.  When the caller has stored the value 10 in the `order`
word of its block at offset 1024, `mem_free` of offset 0 finds order 10, sees the bit of
the order-10 buddy at offset 1024 clear (the upper part of that region is free) and its
`order` word equal to 10, and unlinks it from `free_lists[10]`, which is empty: the call
does not return. -/
theorem mem_free_effect_fails_after_store :
    (mem_alloc demo0 1024).1 = some 0 ∧
      (mem_alloc (mem_alloc demo0 1024).2 128).1 = some 1024 ∧
      (mem_free own4 (some 0)).map Prod.fst = some 0 ∧
      own4.hdr_order 1024 = 7 ∧
      own5 = caller_write own4 1024 10 ∧
      get_block_order own5 0 = 10 ∧ get_buddy 0 10 = 1024 ∧
      is_allocated own5 1024 10 = false ∧ own5.hdr_order 1024 = 10 ∧
      own5.free_lists 10 = [] ∧
      (mem_free own5 (some 0)).isNone = true :=
  ⟨by decide, by decide, by decide, by decide, rfl, by decide, by decide, by decide,
    by decide, by decide, by decide⟩

/-- C17 (alloc followed by free is the identity) fails on a state of valid use.  After
`mem_init(4096, 128)`, `mem_alloc(256)` (offset 0), `mem_alloc(128)` (offset 256) and
`mem_free` of offset 0, the caller stores the value 8 in the `order` word of its block at
offset 256.  `mem_alloc(256)` then succeeds and returns offset 0, and the immediately
following `mem_free` of offset 0 does not return: it finds the bit of the order-8 buddy at
offset 256 clear and its `order` word equal to 8, and unlinks it from `free_lists[8]`,
which is empty.  Without the store the same two calls return offset 0 and 0. -/
theorem alloc_free_identity_fails_after_store :
    (mem_alloc demo0 256).1 = some 0 ∧ (mem_alloc own0 128).1 = some 256 ∧
      (mem_free own1 (some 0)).map Prod.fst = some 0 ∧
      back1 = caller_write back0 256 8 ∧
      (mem_alloc back1 256).1 = some 0 ∧
      get_block_order back2 0 = 8 ∧ get_buddy 0 8 = 256 ∧
      is_allocated back2 256 8 = false ∧ back2.hdr_order 256 = 8 ∧
      back2.free_lists 8 = [] ∧
      (mem_free back2 (some 0)).isNone = true ∧
      (mem_alloc back0 256).1 = some 0 ∧
      (mem_free (mem_alloc back0 256).2 (some 0)).map Prod.fst = some 0 :=
  ⟨by decide, by decide, by decide, rfl, by decide, by decide, by decide, by decide,
    by decide, by decide, by decide, by decide, by decide⟩

/-- C20 (termination) fails in its conclusion that `mem_free` is a total function of the
state and its argument: after `mem_init(4096, 128)`, `mem_alloc(512)` (offset 0) and
`mem_alloc(128)` (offset 512), the caller stores 9 in the `order` word of its block at
offset 512.  The arena satisfies `1 ≤ min_size ≤ total_size ≤ 2 ^ 30`; `mem_free(0)` finds
order 9, sees the bit of the buddy at offset 512 clear and its `order` word equal to 9,
and walks off `free_lists[9]`, which is empty: the call does not return. -/
theorem mem_free_total_counterexample :
    (1 ≤ own3.min_size ∧ own3.min_size ≤ own3.total_size ∧ own3.total_size ≤ 2 ^ 30) ∧
      Reachable 4096 128 (mem_alloc (mem_alloc demo0 512).2 128).2 [(512, 7), (0, 9)] ∧
      own3 = caller_write (mem_alloc (mem_alloc demo0 512).2 128).2 512 9 ∧
      get_block_order own3 0 = 9 ∧ get_buddy 0 9 = 512 ∧
      is_allocated own3 512 9 = false ∧ own3.hdr_order 512 = 9 ∧
      own3.free_lists 9 = [] ∧
      (mem_free own3 (some 0)).isNone = true :=
  ⟨⟨by decide, by decide, by decide⟩,
    Reachable.alloc_ok (mem_alloc demo0 512).2 [(0, 9)] 128 512
      (Reachable.alloc_ok demo0 [] 512 0 Reachable.init (by decide)) (by decide),
    rfl, by decide, by decide, by decide, by decide, by decide, by decide⟩

/-! ## The program on its memory: runs that leave the design

Two defects of the program show in the runs below.  The bitmap is declared
`unsigned int *` and indexed by `bit / 8`, so consecutive groups of eight bits lie four
bytes apart, while `mem_init` reserves `num_blocks / 8 + 1` bytes for it and obtains the
list heads right behind: bitmap words lie in the list heads.  And `mem_init` accepts a
`min_size` below the size of `struct mem_block`, whose link and `order` field every free
block must hold: the header of a block then lies over its neighbours, the bitmap or the
list heads. -/

/-- C4 (split/merge round trip) fails in the program.  On a 32-bit target, after
`mem_init(64, 4)`, `mem_alloc(4)` (offset 0) and `mem_free` of offset 0, which returns 0,
the whole arena is back on `free_lists[6]` and the 16 bits are clear, but the heads of
`free_lists[2]` and `free_lists[3]`, `NULL` after `mem_init`, hold the address 2: the
merges took the links of the blocks at offsets 4 and 8, over which `order` fields had
been stored. -/
theorem round_trip_fails_in_memory :
    Prog.alloc_ptr mid0 4 = some Prog.heap_base ∧
      Prog.free_ret mid1 Prog.heap_base = some 0 ∧
      Prog.first mid2 6 = some Prog.heap_base ∧
      Prog.link mid2 Prog.heap_base = some 0 ∧
      Prog.set_bits mid2 16 = some [] ∧
      Prog.first mid0 2 = some 0 ∧ Prog.first mid0 3 = some 0 ∧
      Prog.first mid2 2 = some 2 ∧ Prog.first mid2 3 = some 2 :=
  ⟨by decide!, by decide!, by decide!, by decide!, by decide!, by decide!, by decide!,
    by decide!, by decide!⟩

/-- C5 (order discovery) fails in the program.  On a 32-bit target, after `mem_init(16, 4)`
and `mem_alloc(8)` (offset 0, order 3, terminating bit 1) `get_block_order` finds order 3
for offset 0.  The next call `mem_alloc(4)` (offset 8) splits the block at offset 8; the
`order` field of the buddy at offset 12 is the word at offset 16, which is word 0 of the
bitmap: the store clears bit 1.  From then on `get_block_order` of offset 0 returns `-1`
and `mem_free` of the handed-out offset 0 returns `-1`. -/
theorem order_discovery_fails_in_memory :
    Prog.alloc_ptr small0 8 = some Prog.heap_base ∧
      (small1.bind fun m => Prog.get_block_order m Prog.heap_base) = some 3 ∧
      Prog.alloc_ptr small1 4 = some (Prog.heap_base + 8) ∧
      (small2.map fun m => (Prog.order_addr m (Prog.heap_base + 12), Prog.bit_word m 1)) =
        some (Prog.heap_base + 16, Prog.heap_base + 16) ∧
      (small2.bind fun m => Prog.get_block_order m Prog.heap_base) = some (-1) ∧
      Prog.free_ret small2 Prog.heap_base = some (-1) :=
  ⟨by decide!, by decide!, by decide!, by decide!, by decide!, by decide!⟩

/-- C7 (post-init state) fails in the program.  On a 32-bit target `mem_init(2, 1)` has
`min_order = 0` and `total_order = 1`, and the `order` field of the block at offset 0 lies
over the head of `free_lists[0]`, which is left holding `0x100` instead of `NULL`.  On a
64-bit target `mem_init(8, 1)` has 8 bitmap bits, and the `order` field of the block at
offset 0, with the value 3, is word 0 of the bitmap: bits 6 and 7 are set. -/
theorem post_init_fails_in_memory :
    ((Prog.mem_init 4 Prog.heap_base Prog.fresh 2 1).map
        fun m => (m.min_order, m.total_order)) = some (0, 1) ∧
      Prog.first (Prog.mem_init 4 Prog.heap_base Prog.fresh 2 1) 1 = some Prog.heap_base ∧
      Prog.first (Prog.mem_init 4 Prog.heap_base Prog.fresh 2 1) 0 = some 0x100 ∧
      ((Prog.mem_init 8 Prog.heap_base Prog.fresh 8 1).map
        fun m => m.total_size / m.min_size) = some 8 ∧
      Prog.set_bits (Prog.mem_init 8 Prog.heap_base Prog.fresh 8 1) 8 = some [6, 7] :=
  ⟨by decide!, by decide!, by decide!, by decide!, by decide!⟩

/-- C9 (exhaustion) fails in the program.  On a 64-bit target, after `mem_init(4096, 16)`
the call `mem_alloc(4096)` returns offset 0; its terminating bit 255 lies in the bitmap
word three bytes into the head of `free_lists[11]`, which changes from `NULL` to
`0x01000000`.  The next `mem_alloc(16)` does not return `NULL`: it finds
`free_lists[4 .. 10]` empty, takes the head of `free_lists[11]` and reads the link at
`0x01000000`, outside the memory of the program.  On a 32-bit target, after `mem_init(4, 1)`
the call `mem_alloc(4)` returns offset 0 and a following `mem_alloc(1)` returns `NULL`, but
the store of the `order` field of the block, which is word 0 of the bitmap, has wiped its
terminating bit 3: `mem_free` of offset 0 returns `-1` and `mem_alloc(1)` still returns
`NULL`. -/
theorem exhaustion_fails_in_memory :
    (Prog.alloc_ptr wide0 4096 = some Prog.heap_base ∧
      Prog.first wide0 11 = some 0 ∧
      (wide1.map fun m => (Prog.bit_word m 255, Prog.head_addr m 11 + 3)) =
        some (Prog.heap_base + 4220, Prog.heap_base + 4220) ∧
      Prog.first wide1 11 = some 0x01000000 ∧
      Prog.first wide1 4 = some 0 ∧ Prog.first wide1 10 = some 0 ∧
      (wide1.bind fun m => Prog.read m 0x01000000 8) = none ∧
      Prog.alloc_ptr wide1 16 = none) ∧
    (Prog.alloc_ptr unit0 4 = some Prog.heap_base ∧
      Prog.alloc_ptr unit1 1 = some 0 ∧
      (unit1.map fun m => (Prog.order_addr m Prog.heap_base, Prog.bit_word m 3)) =
        some (Prog.heap_base + 4, Prog.heap_base + 4) ∧
      Prog.set_bits unit1 4 = some [] ∧
      Prog.free_ret unit1 Prog.heap_base = some (-1) ∧
      Prog.alloc_ptr (Prog.free_state unit1 Prog.heap_base) 1 = some 0) :=
  ⟨⟨by decide!, by decide!, by decide!, by decide!, by decide!, by decide!, by decide!,
      by decide!⟩,
    ⟨by decide!, by decide!, by decide!, by decide!, by decide!, by decide!⟩⟩

/-- C13 (effect of a successful `mem_alloc`) fails in the program.  On a 64-bit target,
after `mem_init(4096, 16)` the call `mem_alloc(4096)` has target order 12, finds the block
at offset 0 on `free_lists[12]`, returns it and empties that list, with no split; but it
also changes `free_lists[11]`, whose head goes from `NULL` to `0x01000000`, because the
word of the terminating bit 255 lies in that head.  On a 32-bit target, after
`mem_init(64, 4)` the call `mem_alloc(4)` links the block at offset 8 at the head of
`free_lists[3]` with `NULL` as its link, and then stores the `order` field of the block at
offset 4 over that link. -/
theorem alloc_effect_fails_in_memory :
    (Prog.first wide0 12 = some Prog.heap_base ∧ Prog.first wide0 11 = some 0 ∧
      Prog.alloc_ptr wide0 4096 = some Prog.heap_base ∧
      Prog.first wide1 12 = some 0 ∧ Prog.first wide1 11 = some 0x01000000) ∧
    (Prog.alloc_ptr mid0 4 = some Prog.heap_base ∧
      Prog.first mid1 3 = some (Prog.heap_base + 8) ∧
      (mid1.map fun m => Prog.order_addr m (Prog.heap_base + 4)) =
        some (Prog.heap_base + 8) ∧
      Prog.link mid1 (Prog.heap_base + 8) = some 2) :=
  ⟨⟨by decide!, by decide!, by decide!, by decide!, by decide!⟩,
    ⟨by decide!, by decide!, by decide!, by decide!⟩⟩

/-- C15 (bitmap encoding, I2) fails in the program.  On a 32-bit target, after
`mem_init(16, 4)`, `mem_alloc(8)` (offset 0, order 3) and `mem_alloc(4)` (offset 8,
order 2), the two handed-out blocks end at the bitmap indices 1 and 2, but of the four
bits of the arena only bit 2 is set: bit 1 is clear although a handed-out block ends
there.  (Bit 6, beyond the arena, is set as well.) -/
theorem bitmap_encoding_fails_in_memory :
    Prog.alloc_ptr small0 8 = some Prog.heap_base ∧
      Prog.alloc_ptr small1 4 = some (Prog.heap_base + 8) ∧
      (small2.map fun m => m.total_size / m.min_size) = some 4 ∧
      (small2.map fun m => (Prog.get_last_bit m Prog.heap_base 3,
        Prog.get_last_bit m (Prog.heap_base + 8) 2)) = some (1, 2) ∧
      Prog.set_bits small2 4 = some [2] ∧
      (small2.bind fun m => Prog.BIT_ISSET m 1) = some false ∧
      Prog.set_bits small2 8 = some [2, 6] :=
  ⟨by decide!, by decide!, by decide!, by decide!, by decide!, by decide!, by decide!⟩

/-- C16 (free-list exclusivity, I4) fails in the program.  On a 32-bit target, after
`mem_init(16, 4)`, `mem_alloc(8)` (offset 0) and `mem_alloc(4)` (offset 8), the call
`mem_free` of offset 8 returns 0 without merging: the `order` field of the free buddy at
offset 12 is word 0 of the bitmap and no longer holds 2.  Afterwards the block at offset 8
is the head of `free_lists[2]` and its link is its buddy at offset 12: both buddies of
order 2 are on `free_lists[2]`, and `2 < total_order`. -/
theorem exclusivity_fails_in_memory :
    Prog.alloc_ptr small0 8 = some Prog.heap_base ∧
      Prog.alloc_ptr small1 4 = some (Prog.heap_base + 8) ∧
      Prog.first small2 2 = some (Prog.heap_base + 12) ∧
      (small2.bind fun m => Prog.read m (Prog.order_addr m (Prog.heap_base + 12)) 4) =
        some 0x22 ∧
      Prog.free_ret small2 (Prog.heap_base + 8) = some 0 ∧
      Prog.first small3 2 = some (Prog.heap_base + 8) ∧
      Prog.link small3 (Prog.heap_base + 8) = some (Prog.heap_base + 12) ∧
      (small3.map fun m => (Prog.get_buddy m (Prog.heap_base + 8) 2, m.total_order)) =
        some (Prog.heap_base + 12, 4) :=
  ⟨by decide!, by decide!, by decide!, by decide!, by decide!, by decide!, by decide!,
    by decide!⟩

/-- C19 (`mem_dump` renders the partition) fails in the program.  On a 64-bit target,
after `mem_init(2 ^ 31, 2 ^ 31)` the single free block of `2 ^ 31` bytes is printed with
`%d` as `-2147483648`.  On a 32-bit target, after `mem_init(4, 1)` and `mem_alloc(4)`
(offset 0) the dump is empty although the four bytes of the arena are handed out: the
terminating bit of the block has been wiped by the store of its `order` field. -/
theorem mem_dump_fails_in_memory :
    ((Prog.mem_init 8 Prog.heap_base Prog.fresh (2 ^ 31) (2 ^ 31)).bind Prog.mem_dump) =
        some [(-2147483648, false)] ∧
      (unit0.bind Prog.mem_dump) = some [(4, false)] ∧
      Prog.alloc_ptr unit0 4 = some Prog.heap_base ∧
      (unit1.bind Prog.mem_dump) = some [] :=
  ⟨by decide!, by decide!, by decide!, by decide!⟩


end Buddy
